import Mathlib

/-!
Verification of the peer-relative anomaly risk scoring engine of the
RPT arm-length dashboard (src/app.py).

The core pipeline in the source is:

* an IsolationForest is fitted on the peer cohort's four ratio features
  (`model.fit(peer_df[rpt_features])`, lines 145-151) with the fixed
  configuration `n_estimators=200, contamination=0.15, random_state=42`;
* the negated decision function gives raw anomaly scores for the peer
  rows and for the target row (lines 153-154);
* `ai_score = (company_score - peer_scores.min()) / (peer_scores.max() -
  peer_scores.min())`, rounded to 3 decimal places (lines 156-157);
* the classifier (lines 161-169):
  `if ai_score >= risk_threshold: "high"
   elif ai_score >= risk_threshold * 0.7: "medium"
   else: "low"`.

The embedding models float values by rationals together with the IEEE
non-finite values `nan`, `+inf`, `-inf` (type `PyFloat`), so that the
source's behaviour on a zero peer-score range (a 0/0 division producing a
NaN that every comparison treats as False) is represented faithfully.
The fitted model's decision function is abstracted as a function
parameter: it is a deterministic function of the configuration and the
cohort (scikit-learn with a fixed `random_state` is deterministic), and
the claims quantify over it.
-/

namespace RPT

/-- Risk tiers produced by the classifier, ordered low < medium < high. -/
inductive RiskTier
  | low
  | medium
  | high
deriving DecidableEq, Repr

/-- Rank of a tier in the total order low < medium < high. -/
def RiskTier.rank : RiskTier → Nat
  | .low => 0
  | .medium => 1
  | .high => 2

/-- Python float values: a rational (finite value) or one of the IEEE
non-finite values NaN, +inf, -inf. -/
inductive PyFloat
  | nan
  | pinf
  | ninf
  | val (q : ℚ)
deriving DecidableEq, Repr

/-- Whether a float value is finite (neither NaN nor infinite). -/
def PyFloat.isFinite : PyFloat → Bool
  | .val _ => true
  | _ => false

/-- The comparison `x >= t` between a float and a finite rational, with
IEEE semantics: every comparison with NaN is False. -/
def PyFloat.geQ : PyFloat → ℚ → Bool
  | .nan, _ => false
  | .pinf, _ => true
  | .ninf, _ => false
  | .val q, t => decide (t ≤ q)

/-- IEEE float division of finite operands: a zero denominator gives NaN
when the numerator is also zero and a signed infinity otherwise. -/
def fdiv (num den : ℚ) : PyFloat :=
  if den = 0 then
    if num = 0 then .nan else if 0 < num then .pinf else .ninf
  else .val (num / den)

/-- Round to the nearest integer with ties going to the even integer
(the semantics of Python 3 `round`). -/
def roundHalfEven (x : ℚ) : ℤ :=
  if x - ⌊x⌋ = 1 / 2 then (if 2 ∣ ⌊x⌋ then ⌊x⌋ else ⌊x⌋ + 1)
  else round x

/-- Python `round(x, 3)`: round to 3 decimal places, ties to even. -/
def round3 (x : ℚ) : ℚ := (roundHalfEven (x * 1000) : ℚ) / 1000

/-- Python `round(x, 3)` lifted to float values: `round` of a non-finite
value returns it unchanged. -/
def PyFloat.round3F : PyFloat → PyFloat
  | .val q => .val (round3 q)
  | x => x

/-- Minimum of a list of scores (numpy `.min()`; the source only applies
it to nonempty peer cohorts). -/
def lmin : List ℚ → ℚ
  | [] => 0
  | x :: xs => xs.foldl min x

/-- Maximum of a list of scores (numpy `.max()`). -/
def lmax : List ℚ → ℚ
  | [] => 0
  | x :: xs => xs.foldl max x

/-- Lines 156-157 of src/app.py:
`ai_score = (company_score - peer_scores.min()) / (peer_scores.max() - peer_scores.min())`
followed by `ai_score = round(float(ai_score), 3)`. -/
def ai_score (company_score : ℚ) (peer_scores : List ℚ) : PyFloat :=
  (fdiv (company_score - lmin peer_scores)
        (lmax peer_scores - lmin peer_scores)).round3F

/-- Lines 161-169 of src/app.py on a finite score:
`if ai_score >= risk_threshold: "high"
 elif ai_score >= risk_threshold * 0.7: "medium"
 else: "low"`. -/
def risk_state (s risk_threshold : ℚ) : RiskTier :=
  if risk_threshold ≤ s then .high
  else if risk_threshold * (7 / 10) ≤ s then .medium
  else .low

/-- Lines 161-169 of src/app.py on a possibly non-finite score: Python
evaluates `nan >= t` to False, so a NaN score falls through both guards
to the `low` branch. -/
def risk_stateF (s : PyFloat) (risk_threshold : ℚ) : RiskTier :=
  if s.geQ risk_threshold then .high
  else if s.geQ (risk_threshold * (7 / 10)) then .medium
  else .low

/-- One row of the feature matrix `peer_df[rpt_features]` (lines
138-143): the four RPT ratio features of one entity-year.  Fields are
float values so that missing (NaN) or infinite entries can be stated. -/
structure FeatureVector where
  rpt_sales_ratio : PyFloat
  rpt_purchase_ratio : PyFloat
  rpt_loan_ratio : PyFloat
  rpt_expense_to_ebitda : PyFloat
deriving DecidableEq, Repr

/-- Whether all four features of a row are finite. -/
def FeatureVector.allFinite (v : FeatureVector) : Bool :=
  v.rpt_sales_ratio.isFinite && v.rpt_purchase_ratio.isFinite &&
  v.rpt_loan_ratio.isFinite && v.rpt_expense_to_ebitda.isFinite

/-- The fixed IsolationForest configuration of lines 145-149. -/
structure ForestConfig where
  n_estimators : Nat
  contamination : ℚ
  random_state : Nat
deriving DecidableEq, Repr

/-- The configuration hard-coded in the source:
`IsolationForest(n_estimators=200, contamination=0.15, random_state=42)`. -/
def sourceConfig : ForestConfig := ⟨200, 15 / 100, 42⟩

/-- The failure the pipeline can raise.  `invalidFeatureError` models the
ValueError that scikit-learn's input validation raises from `model.fit`
(line 151) when the feature matrix contains a NaN or infinite entry. -/
inductive ScoreError
  | invalidFeatureError
deriving DecidableEq, Repr

/-- Modelled from the spec: the Outlier Model collaborator (scikit-learn's
IsolationForest, a library external to src/) validates the feature matrix
passed to `model.fit` (line 151) and fails if any feature column contains
non-finite values; it never imputes a value. -/
def fitValidate (cohort : List FeatureVector) : Except ScoreError Unit :=
  if cohort.all (fun v => v.allFinite) then .ok () else .error .invalidFeatureError

/-- The scoring pipeline of lines 145-169, with the fitted model's
(negated) decision function abstracted as `fitdf`: a deterministic
function of the configuration and the cohort it was fitted on, returning
one raw anomaly score per row (scikit-learn with fixed `random_state` is
deterministic).  After validation the pipeline computes the peer raw
scores, the target's raw score, the normalized score and the tier
exactly as the source does. -/
def computeRisk (fitdf : ForestConfig → List FeatureVector → FeatureVector → ℚ)
    (cfg : ForestConfig) (cohort : List FeatureVector) (target : FeatureVector)
    (risk_threshold : ℚ) : Except ScoreError (ℚ × PyFloat × RiskTier) :=
  match fitValidate cohort with
  | .error e => .error e
  | .ok _ =>
    let df := fitdf cfg cohort
    let peer_scores := cohort.map df
    let company_score := df target
    let s := ai_score company_score peer_scores
    .ok (company_score, s, risk_stateF s risk_threshold)

/-- The Score Normalizer exactly as §4.2 of the spec words it:
`(target_raw - min(peer_raw_scores)) / (max(peer_raw_scores) -
min(peer_raw_scores))`, rounded to 3 decimal places. -/
def normalize_spec (target_raw : ℚ) (peer_raw_scores : List ℚ) : ℚ :=
  round3 ((target_raw - lmin peer_raw_scores) /
            (lmax peer_raw_scores - lmin peer_raw_scores))

/-- A concrete feature row with the given sales ratio, used to evaluate
the theorems on concrete inputs. -/
def sampleRow (q : ℚ) : FeatureVector :=
  ⟨.val q, .val (1 / 10), .val (1 / 20), .val (1 / 10)⟩

/-- A concrete decision function used to evaluate the theorems on
concrete inputs: it reads off the sales ratio. -/
def sampleScore (v : FeatureVector) : ℚ :=
  match v.rpt_sales_ratio with
  | .val q => q
  | _ => 0

/-- A left fold of `min` is bounded by its initial value. -/
lemma foldl_min_le_init (xs : List ℚ) (a : ℚ) : xs.foldl min a ≤ a := by
  induction xs generalizing a with
  | nil => exact le_refl a
  | cons b xs ih => exact le_trans (ih (min a b)) (min_le_left a b)

/-- A left fold of `min` is bounded by every list element. -/
lemma foldl_min_le_mem (xs : List ℚ) (a x : ℚ) (hx : x ∈ xs) :
    xs.foldl min a ≤ x := by
  induction xs generalizing a with
  | nil => cases hx
  | cons b xs ih =>
    rcases List.mem_cons.mp hx with h | h
    · subst h
      exact le_trans (foldl_min_le_init xs (min a x)) (min_le_right a x)
    · exact ih (min a b) h

/-- The cohort minimum is a lower bound on every member's score. -/
lemma lmin_le_of_mem {l : List ℚ} {x : ℚ} (hx : x ∈ l) : lmin l ≤ x := by
  cases l with
  | nil => cases hx
  | cons a xs =>
    rcases List.mem_cons.mp hx with h | h
    · subst h; exact foldl_min_le_init xs x
    · exact foldl_min_le_mem xs a x h

/-- A left fold of `max` is bounded below by its initial value. -/
lemma init_le_foldl_max (xs : List ℚ) (a : ℚ) : a ≤ xs.foldl max a := by
  induction xs generalizing a with
  | nil => exact le_refl a
  | cons b xs ih => exact le_trans (le_max_left a b) (ih (max a b))

/-- A left fold of `max` is bounded below by every list element. -/
lemma mem_le_foldl_max (xs : List ℚ) (a x : ℚ) (hx : x ∈ xs) :
    x ≤ xs.foldl max a := by
  induction xs generalizing a with
  | nil => cases hx
  | cons b xs ih =>
    rcases List.mem_cons.mp hx with h | h
    · subst h
      exact le_trans (le_max_right a x) (init_le_foldl_max xs (max a x))
    · exact ih (max a b) h

/-- The cohort maximum is an upper bound on every member's score. -/
lemma le_lmax_of_mem {l : List ℚ} {x : ℚ} (hx : x ∈ l) : x ≤ lmax l := by
  cases l with
  | nil => cases hx
  | cons a xs =>
    rcases List.mem_cons.mp hx with h | h
    · subst h; exact init_le_foldl_max xs x
    · exact mem_le_foldl_max xs a x h

/-- Half-even rounding never goes below the floor. -/
lemma floor_le_roundHalfEven (x : ℚ) : ⌊x⌋ ≤ roundHalfEven x := by
  unfold roundHalfEven
  split_ifs with h1 h2
  · exact le_refl _
  · omega
  · rw [round_eq]
    exact Int.floor_mono (by linarith)

/-- Half-even rounding never goes above the ceiling. -/
lemma roundHalfEven_le_ceil (x : ℚ) : roundHalfEven x ≤ ⌈x⌉ := by
  unfold roundHalfEven
  split_ifs with h1 h2
  · have h : (⌊x⌋ : ℚ) ≤ x := Int.floor_le x
    exact_mod_cast le_trans h (Int.le_ceil x)
  · have h : (⌊x⌋ : ℚ) < x := by linarith
    have h' : ⌊x⌋ < ⌈x⌉ := Int.lt_ceil.mpr h
    omega
  · rw [round_eq]
    have h : ⌊x + 1 / 2⌋ < ⌈x⌉ + 1 := by
      refine Int.floor_lt.mpr ?_
      have := Int.le_ceil x
      push_cast
      linarith
    omega

/-- Rounding to 3 decimal places keeps a value of the unit interval in
the unit interval. -/
lemma round3_mem_unit {x : ℚ} (h0 : 0 ≤ x) (h1 : x ≤ 1) :
    0 ≤ round3 x ∧ round3 x ≤ 1 := by
  have hl : (0 : ℤ) ≤ roundHalfEven (x * 1000) :=
    le_trans (Int.floor_nonneg.mpr (by linarith)) (floor_le_roundHalfEven _)
  have hu : roundHalfEven (x * 1000) ≤ 1000 := by
    refine le_trans (roundHalfEven_le_ceil _) (Int.ceil_le.mpr ?_)
    push_cast
    linarith
  unfold round3
  constructor
  · exact div_nonneg (by exact_mod_cast hl) (by norm_num)
  · rw [div_le_one (by norm_num)]
    exact_mod_cast hu

/-- When the peer score range is non-zero, `ai_score` is the finite value
given by the min-max formula rounded to 3 decimals. -/
lemma ai_score_eq_val {c : ℚ} {ps : List ℚ} (h : lmax ps - lmin ps ≠ 0) :
    ai_score c ps = .val (round3 ((c - lmin ps) / (lmax ps - lmin ps))) := by
  unfold ai_score fdiv
  rw [if_neg h]
  rfl

/-- The classifier returns `high` exactly on scores at or above the
threshold. -/
lemma risk_state_high_iff (s t : ℚ) : risk_state s t = .high ↔ t ≤ s := by
  unfold risk_state
  split_ifs with h1 h2 <;> simp [h1]

/-- The classifier returns `medium` exactly on the band
`[threshold * 0.7, threshold)`. -/
lemma risk_state_medium_iff (s t : ℚ) :
    risk_state s t = .medium ↔ t * (7 / 10) ≤ s ∧ s < t := by
  unfold risk_state
  split_ifs with h1 h2
  · simp only [reduceCtorEq, false_iff, not_and, not_lt]
    intro _
    exact h1
  · simp only [true_iff]
    exact ⟨h2, not_le.mp h1⟩
  · simp only [reduceCtorEq, false_iff, not_and, not_lt]
    intro h
    exact absurd h h2

/-- For a non-negative threshold the classifier returns `low` exactly on
scores below `threshold * 0.7`. -/
lemma risk_state_low_iff (s t : ℚ) (h0 : 0 ≤ t) :
    risk_state s t = .low ↔ s < t * (7 / 10) := by
  unfold risk_state
  split_ifs with h1 h2
  · simp only [reduceCtorEq, false_iff, not_lt]
    nlinarith
  · simp only [reduceCtorEq, false_iff, not_lt]
    exact h2
  · simp only [true_iff]
    exact not_le.mp h2

/-- The concrete decision function in the shape the pipeline expects:
it ignores the configuration and cohort. -/
def sampleScoreAsFit : ForestConfig → List FeatureVector → FeatureVector → ℚ :=
  fun _ _ v => sampleScore v

example : risk_state (1 / 2) (2 / 5) = .high := by norm_num [risk_state]
example : risk_state (1 / 2) (7 / 10) = .medium := by norm_num [risk_state]
example : risk_state (1 / 2) (4 / 5) = .low := by norm_num [risk_state]
example : round3 (1 / 3) = 333 / 1000 := by
  norm_num [round3, roundHalfEven, round_eq]
example : round3 (15 / 10000) = 2 / 1000 := by
  norm_num [round3, roundHalfEven, round_eq]
example : round3 (25 / 10000) = 2 / 1000 := by
  norm_num [round3, roundHalfEven, round_eq]
example : ai_score 1 [0, 2, 1] = .val (1 / 2) := by
  norm_num [ai_score, lmin, lmax, fdiv, PyFloat.round3F, round3, roundHalfEven, round_eq]
example : ai_score 1 [1, 1, 1] = .nan := by
  norm_num [ai_score, lmin, lmax, fdiv, PyFloat.round3F]

/-- C1.  The claim says a cohort whose raw anomaly scores all coincide
must fail with `DegenerateCohortError` and never propagate a NaN into the
classifier.  The source has no such error: on a cohort of 3 identical
feature rows every raw score coincides, `ai_score` is the 0/0 division
NaN, that NaN reaches the classifier, and both guards evaluate to False,
so the pipeline silently returns tier `low`.  This theorem evaluates the
embedded source at that failing input: for every decision function, the
result is `ok` with a NaN normalized score and tier `low`, not an
error. -/
theorem C1_degenerate_cohort_returns_nan_low
    (fitdf : ForestConfig → List FeatureVector → FeatureVector → ℚ)
    (cfg : ForestConfig) (v : FeatureVector) (t : ℚ)
    (hv : v.allFinite = true) :
    computeRisk fitdf cfg [v, v, v] v t =
      .ok (fitdf cfg [v, v, v] v, PyFloat.nan, RiskTier.low) := by
  simp [computeRisk, fitValidate, hv, ai_score, lmin, lmax, fdiv,
    PyFloat.round3F, risk_stateF, PyFloat.geQ]

/-- C1 witness: the degenerate-cohort theorem evaluated at a concrete
constant decision function, a concrete finite row and threshold 0.5. -/
theorem C1_degenerate_cohort_returns_nan_low_witness :
    computeRisk (fun _ _ _ => 0) sourceConfig
        [sampleRow 0, sampleRow 0, sampleRow 0] (sampleRow 0) (1 / 2) =
      .ok ((fun (_ : ForestConfig) (_ : List FeatureVector) (_ : FeatureVector) => (0 : ℚ))
            sourceConfig [sampleRow 0, sampleRow 0, sampleRow 0] (sampleRow 0),
          PyFloat.nan, RiskTier.low) :=
  C1_degenerate_cohort_returns_nan_low (fun _ _ _ => 0) sourceConfig
    (sampleRow 0) (1 / 2) rfl

/-- C2.  The classifier returns `high` exactly when the score is at or
above the threshold, `medium` exactly on `[threshold * 0.7, threshold)`,
and `low` exactly below `threshold * 0.7`, for every threshold in
`[0, 1]` (lines 161-169 of src/app.py). -/
theorem C2_classifier_bands (s t : ℚ) (h0 : 0 ≤ t) (h1 : t ≤ 1) :
    (risk_state s t = .high ↔ t ≤ s) ∧
    (risk_state s t = .medium ↔ t * (7 / 10) ≤ s ∧ s < t) ∧
    (risk_state s t = .low ↔ s < t * (7 / 10)) :=
  ⟨risk_state_high_iff s t, risk_state_medium_iff s t,
    risk_state_low_iff s t h0⟩

/-- C2 witness: the band characterization at score 0.5 and threshold
0.4. -/
theorem C2_classifier_bands_witness :
    (risk_state (1 / 2) (2 / 5) = .high ↔ (2 / 5 : ℚ) ≤ 1 / 2) ∧
    (risk_state (1 / 2) (2 / 5) = .medium ↔
      (2 / 5 : ℚ) * (7 / 10) ≤ 1 / 2 ∧ (1 / 2 : ℚ) < 2 / 5) ∧
    (risk_state (1 / 2) (2 / 5) = .low ↔ (1 / 2 : ℚ) < (2 / 5) * (7 / 10)) :=
  C2_classifier_bands (1 / 2) (2 / 5) (by norm_num) (by norm_num)

/-- C3.  On every peer raw-score sequence with non-zero range, the
source's `ai_score` (lines 156-157) equals the spec's Score Normalizer:
`(target_raw - min(peer_raw_scores)) / (max(peer_raw_scores) -
min(peer_raw_scores))`, rounded to 3 decimal places — a pure function of
the target raw score and the peer raw scores. -/
theorem C3_normalizer_matches_spec (c : ℚ) (ps : List ℚ)
    (h : lmin ps ≠ lmax ps) :
    ai_score c ps = .val (normalize_spec c ps) := by
  rw [ai_score_eq_val (sub_ne_zero.mpr (Ne.symm h))]
  rfl

/-- C3 witness: the normalizer equation at target raw score 0.5 against
peer raw scores `[0, 1]`. -/
theorem C3_normalizer_matches_spec_witness :
    ai_score (1 / 2) [0, 1] = .val (normalize_spec (1 / 2) [0, 1]) :=
  C3_normalizer_matches_spec (1 / 2) [0, 1] (by norm_num [lmin, lmax])

/-- C4.  Under peer-inclusive training (the target's row is a member of
the cohort whose rows the fitted decision function scores), the target's
raw score lies within the peer scores' min-max range, and for a
non-degenerate range the normalized score is a finite value in
`[0, 1]`. -/
theorem C4_normalized_score_in_unit_interval
    (f : FeatureVector → ℚ) (peers : List FeatureVector)
    (target : FeatureVector) (hmem : target ∈ peers)
    (hnd : lmin (peers.map f) ≠ lmax (peers.map f)) :
    lmin (peers.map f) ≤ f target ∧ f target ≤ lmax (peers.map f) ∧
    ∃ q : ℚ, ai_score (f target) (peers.map f) = .val q ∧ 0 ≤ q ∧ q ≤ 1 := by
  have hm : f target ∈ peers.map f := List.mem_map.mpr ⟨target, hmem, rfl⟩
  have h1 : lmin (peers.map f) ≤ f target := lmin_le_of_mem hm
  have h2 : f target ≤ lmax (peers.map f) := le_lmax_of_mem hm
  have hlt : lmin (peers.map f) < lmax (peers.map f) :=
    lt_of_le_of_ne (h1.trans h2) hnd
  have hden : 0 < lmax (peers.map f) - lmin (peers.map f) := by linarith
  have hq0 : 0 ≤ (f target - lmin (peers.map f)) /
      (lmax (peers.map f) - lmin (peers.map f)) :=
    div_nonneg (by linarith) (le_of_lt hden)
  have hq1 : (f target - lmin (peers.map f)) /
      (lmax (peers.map f) - lmin (peers.map f)) ≤ 1 :=
    (div_le_one hden).mpr (by linarith)
  obtain ⟨hr0, hr1⟩ := round3_mem_unit hq0 hq1
  exact ⟨h1, h2, _, ai_score_eq_val (ne_of_gt hden), hr0, hr1⟩

/-- C4 witness: the bounds at a two-row cohort containing the target,
scored by reading off the sales ratio. -/
theorem C4_normalized_score_in_unit_interval_witness :
    lmin ([sampleRow 0, sampleRow 1].map sampleScore) ≤ sampleScore (sampleRow 0) ∧
    sampleScore (sampleRow 0) ≤ lmax ([sampleRow 0, sampleRow 1].map sampleScore) ∧
    ∃ q : ℚ,
      ai_score (sampleScore (sampleRow 0)) ([sampleRow 0, sampleRow 1].map sampleScore) =
        .val q ∧ 0 ≤ q ∧ q ≤ 1 :=
  C4_normalized_score_in_unit_interval sampleScore [sampleRow 0, sampleRow 1]
    (sampleRow 0) (by simp)
    (by norm_num [sampleRow, sampleScore, lmin, lmax])

/-- C5.  The claim says a cohort of fewer than 2 rows must fail with
`InsufficientDataError` before any score or tier is produced.  The source
has no such error: on a cohort containing only the target, the peer
score list is a singleton, its min-max range is zero, `ai_score` is the
0/0 NaN, and the classifier returns tier `low`.  This theorem evaluates
the embedded source at that failing input: for every decision function
the pipeline returns `ok` with a NaN score and tier `low`, not an
error. -/
theorem C5_cohort_of_one_returns_nan_low
    (fitdf : ForestConfig → List FeatureVector → FeatureVector → ℚ)
    (cfg : ForestConfig) (v : FeatureVector) (t : ℚ)
    (hv : v.allFinite = true) :
    computeRisk fitdf cfg [v] v t =
      .ok (fitdf cfg [v] v, PyFloat.nan, RiskTier.low) := by
  simp [computeRisk, fitValidate, hv, ai_score, lmin, lmax, fdiv,
    PyFloat.round3F, risk_stateF, PyFloat.geQ]

/-- C5 witness: the cohort-of-one theorem evaluated at a concrete
constant decision function, a concrete finite row and threshold 0.7. -/
theorem C5_cohort_of_one_returns_nan_low_witness :
    computeRisk (fun _ _ _ => 1) sourceConfig [sampleRow 1] (sampleRow 1) (7 / 10) =
      .ok ((fun (_ : ForestConfig) (_ : List FeatureVector) (_ : FeatureVector) => (1 : ℚ))
            sourceConfig [sampleRow 1] (sampleRow 1),
          PyFloat.nan, RiskTier.low) :=
  C5_cohort_of_one_returns_nan_low (fun _ _ _ => 1) sourceConfig
    (sampleRow 1) (7 / 10) rfl

/-- C6.  When some cohort row contains a non-finite (NaN or infinite, in
particular missing) feature value, the pipeline fails at `model.fit`
(line 151) with the validation error and returns no score or tier: the
value is never imputed. -/
theorem C6_nonfinite_feature_fails
    (fitdf : ForestConfig → List FeatureVector → FeatureVector → ℚ)
    (cfg : ForestConfig) (cohort : List FeatureVector)
    (target : FeatureVector) (t : ℚ)
    (h : ∃ v ∈ cohort, v.allFinite = false) :
    computeRisk fitdf cfg cohort target t = .error .invalidFeatureError := by
  obtain ⟨v, hvmem, hvfin⟩ := h
  have hall : cohort.all (fun v => v.allFinite) = false := by
    rcases hb : cohort.all (fun v => v.allFinite) with _ | _
    · rfl
    · have := List.all_eq_true.mp hb v hvmem
      rw [hvfin] at this
      cases this
  simp [computeRisk, fitValidate, hall]

/-- C6 witness: a one-row cohort whose sales ratio is NaN fails with the
feature-validation error. -/
theorem C6_nonfinite_feature_fails_witness :
    computeRisk (fun _ _ _ => 0) sourceConfig
        [⟨.nan, .val 0, .val 0, .val 0⟩] ⟨.nan, .val 0, .val 0, .val 0⟩ (1 / 2) =
      .error .invalidFeatureError :=
  C6_nonfinite_feature_fails (fun _ _ _ => 0) sourceConfig
    [⟨.nan, .val 0, .val 0, .val 0⟩] ⟨.nan, .val 0, .val 0, .val 0⟩ (1 / 2)
    ⟨⟨.nan, .val 0, .val 0, .val 0⟩, by simp, rfl⟩

/-- C7.  For a fixed threshold, the tier is a non-decreasing function of
the normalized score under the total order low < medium < high. -/
theorem C7_tier_monotone (s1 s2 t : ℚ) (h : s1 ≤ s2) :
    (risk_state s1 t).rank ≤ (risk_state s2 t).rank := by
  unfold risk_state
  split_ifs <;> simp [RiskTier.rank] <;> linarith

/-- C7 witness: monotonicity at scores 0.25 ≤ 0.75 and threshold 0.5. -/
theorem C7_tier_monotone_witness :
    (risk_state (1 / 4) (1 / 2)).rank ≤ (risk_state (3 / 4) (1 / 2)).rank :=
  C7_tier_monotone (1 / 4) (3 / 4) (1 / 2) (by norm_num)

/-- C8.  Determinism: for a fixed cohort (same rows in the same order)
and the fixed source configuration (200 estimators, contamination 0.15,
random seed 42, under which the fitted decision function is a
deterministic function of the cohort), any two invocations of the
pipeline return identical raw score, normalized score and tier. -/
theorem C8_deterministic
    (fitdf : ForestConfig → List FeatureVector → FeatureVector → ℚ)
    (cohort : List FeatureVector) (target : FeatureVector) (t : ℚ)
    (out1 out2 : Except ScoreError (ℚ × PyFloat × RiskTier))
    (h1 : out1 = computeRisk fitdf sourceConfig cohort target t)
    (h2 : out2 = computeRisk fitdf sourceConfig cohort target t) :
    out1 = out2 :=
  h1.trans h2.symm

/-- C8 witness: two concrete invocations on the same two-row cohort
coincide. -/
theorem C8_deterministic_witness :
    computeRisk sampleScoreAsFit sourceConfig [sampleRow 0, sampleRow 1]
        (sampleRow 1) (1 / 2) =
      computeRisk sampleScoreAsFit sourceConfig [sampleRow 0, sampleRow 1]
        (sampleRow 1) (1 / 2) :=
  C8_deterministic sampleScoreAsFit [sampleRow 0, sampleRow 1] (sampleRow 1)
    (1 / 2) _ _ rfl rfl

/-- C9.  Threshold sensitivity of the classifier at normalized score
0.5: threshold 0.4 yields `high`; threshold 0.7 yields `medium` (its
bands are high ≥ 0.7, medium [0.49, 0.7), low < 0.49); threshold 0.8
yields `low`, which is the tier the band rules assign there since
0.5 < 0.8 * 0.7 = 0.56 (not `medium`, which the spec's prose also
states). -/
theorem C9_threshold_sensitivity :
    risk_state (1 / 2) (2 / 5) = .high ∧
    risk_state (1 / 2) (7 / 10) = .medium ∧
    (7 / 10 : ℚ) * (7 / 10) = 49 / 100 ∧
    risk_state (1 / 2) (4 / 5) = .low ∧
    (1 / 2 : ℚ) < (4 / 5) * (7 / 10) := by
  refine ⟨?_, ?_, by norm_num, ?_, by norm_num⟩ <;> norm_num [risk_state]

/-- C10.  For every score (also outside `[0, 1]`) and every threshold in
`[0, 1]`, exactly one of the classifier's three bands holds and the
classifier returns the corresponding tier: the bands are mutually
exclusive and jointly exhaustive and the classifier is total. -/
theorem C10_bands_partition (s t : ℚ) (h0 : 0 ≤ t) (h1 : t ≤ 1) :
    (t ≤ s ∧ ¬(t * (7 / 10) ≤ s ∧ s < t) ∧ ¬(s < t * (7 / 10)) ∧
      risk_state s t = .high) ∨
    (¬(t ≤ s) ∧ (t * (7 / 10) ≤ s ∧ s < t) ∧ ¬(s < t * (7 / 10)) ∧
      risk_state s t = .medium) ∨
    (¬(t ≤ s) ∧ ¬(t * (7 / 10) ≤ s ∧ s < t) ∧ (s < t * (7 / 10)) ∧
      risk_state s t = .low) := by
  by_cases hH : t ≤ s
  · refine Or.inl ⟨hH, ?_, ?_, ?_⟩
    · rintro ⟨-, hlt⟩
      exact absurd hH (not_le.mpr hlt)
    · push_neg
      nlinarith
    · unfold risk_state
      rw [if_pos hH]
  · by_cases hM : t * (7 / 10) ≤ s
    · refine Or.inr (Or.inl ⟨hH, ⟨hM, not_le.mp hH⟩, not_lt.mpr hM, ?_⟩)
      unfold risk_state
      rw [if_neg hH, if_pos hM]
    · refine Or.inr (Or.inr ⟨hH, ?_, not_le.mp hM, ?_⟩)
      · rintro ⟨a, -⟩
        exact hM a
      · unfold risk_state
        rw [if_neg hH, if_neg hM]

/-- C10 witness: the partition at score 1.2 (outside the unit interval)
and threshold 0.5. -/
theorem C10_bands_partition_witness :
    ((1 / 2 : ℚ) ≤ 6 / 5 ∧ ¬((1 / 2 : ℚ) * (7 / 10) ≤ 6 / 5 ∧ (6 / 5 : ℚ) < 1 / 2) ∧
      ¬((6 / 5 : ℚ) < (1 / 2) * (7 / 10)) ∧ risk_state (6 / 5) (1 / 2) = .high) ∨
    (¬((1 / 2 : ℚ) ≤ 6 / 5) ∧ ((1 / 2 : ℚ) * (7 / 10) ≤ 6 / 5 ∧ (6 / 5 : ℚ) < 1 / 2) ∧
      ¬((6 / 5 : ℚ) < (1 / 2) * (7 / 10)) ∧ risk_state (6 / 5) (1 / 2) = .medium) ∨
    (¬((1 / 2 : ℚ) ≤ 6 / 5) ∧ ¬((1 / 2 : ℚ) * (7 / 10) ≤ 6 / 5 ∧ (6 / 5 : ℚ) < 1 / 2) ∧
      ((6 / 5 : ℚ) < (1 / 2) * (7 / 10)) ∧ risk_state (6 / 5) (1 / 2) = .low) :=
  C10_bands_partition (6 / 5) (1 / 2) (by norm_num) (by norm_num)

end RPT
